import Mathlib

/-!
# A verification development for the cpal JACK stream bridge

This file gives a shallow embedding, in Lean 4, of the realtime stream
bridge of the cpal audio library (`src/host/jack/stream.rs` together with
the generic `Buffer` abstraction of `src/lib.rs`), and proves properties of
that embedding.

Modelling conventions:

* JACK samples are 32-bit floats in the source, but the bridge only *copies*
  samples (no arithmetic is ever performed on them), so the sample type is
  an arbitrary type `α` here; witnesses instantiate it with `Nat` or `Int`.
* The user-supplied output data callback is an `FnMut` closure in Rust.  A
  deterministic stateful closure's behaviour at its `k`-th invocation is a
  function of `k` and of the buffer contents it is handed, so it is modelled
  as a pure oracle `cb : Nat → List α → List α` (invocation index, current
  staging-buffer contents ↦ new staging-buffer contents).  The handler state
  carries `output_callback_count`, the number of invocations so far; this
  field is proof instrumentation that the Rust struct does not store
  explicitly, but it changes exactly when `output_callback(&mut data)` runs.
* The native per-channel output views (`out_ports[ch].as_mut_slice`) are
  represented frame-major: `process` returns the list of emitted frames, the
  frame at position `i` being the list of the `num_out_channels` samples
  written to `output_channel[i]` for each channel in order.  Equality of
  these frame lists is exactly frame-for-frame equality of the per-channel
  native views.
* Out-of-bounds list indexing in Lean uses `getD` with an explicit default
  `dflt`; under the length invariants established below every access the
  source performs is in bounds, so `dflt` never leaks into results.
-/

namespace Cpal

namespace Jack

/-- State of `LocalProcessHandler` (src/host/jack/stream.rs:182-197) that the
`process` callback reads or writes.  `num_out_channels` is `out_ports.len()`;
the three `temp_output_buffer*` fields are verbatim from the source;
`output_callback_count` instruments the number of user-callback invocations
(see the module docstring). -/
structure LocalProcessHandler (α : Type) where
  num_out_channels : Nat
  temp_output_buffer : List α
  /-- The number of frames in the temp_output_buffer (the period size). -/
  temp_output_buffer_size : Nat
  temp_output_buffer_index : Nat
  output_callback_count : Nat
  deriving DecidableEq, Repr

/-- `LocalProcessHandler::new` (src/host/jack/stream.rs:199-228): the staging
buffer is `vec![0.0; out_ports.len() * buffer_size]` and the index starts at
`0`; `zero` stands for the `0.0` sample. -/
def LocalProcessHandler.new (α : Type) (num_out_channels buffer_size : Nat)
    (zero : α) : LocalProcessHandler α :=
  { num_out_channels := num_out_channels
    temp_output_buffer := List.replicate (num_out_channels * buffer_size) zero
    temp_output_buffer_size := buffer_size
    temp_output_buffer_index := 0
    output_callback_count := 0 }

/-- The frame loop of `LocalProcessHandler::process`
(src/host/jack/stream.rs:270-287), recursing on the number of remaining
frames.  Each iteration: if the staging buffer is depleted
(`temp_output_buffer_index == temp_output_buffer_size`) run the output
callback on the whole staging buffer and reset the index; then copy the
interleaved samples `temp_output_buffer[ch_ix + index * num_out_channels]`
to each output channel at the current frame; then increment the index.
Returns the emitted frames (frame-major, see module docstring) and the
final handler state. -/
def processLoop {α : Type} (cb : Nat → List α → List α) (dflt : α) :
    Nat → LocalProcessHandler α → List (List α) × LocalProcessHandler α
  | 0, s => ([], s)
  | Nat.succ n, s =>
    let s1 := if s.temp_output_buffer_index = s.temp_output_buffer_size then
        { s with
          temp_output_buffer := cb s.output_callback_count s.temp_output_buffer
          temp_output_buffer_index := 0
          output_callback_count := s.output_callback_count + 1 }
      else s
    let frame := (List.range s1.num_out_channels).map fun ch_ix =>
      s1.temp_output_buffer.getD
        (ch_ix + s1.temp_output_buffer_index * s1.num_out_channels) dflt
    let rest := processLoop cb dflt n
      { s1 with temp_output_buffer_index := s1.temp_output_buffer_index + 1 }
    (frame :: rest.1, rest.2)

/-- `LocalProcessHandler::process` (src/host/jack/stream.rs:238-293).
`has_input_callback` / `has_output_callback` model whether
`input_data_callback` / `output_data_callback` is `Some`.  If the shared
`playing` flag is false the function returns `jack::Control::Continue` at
once, touching nothing.  The input branch (lines 246-254) contains no
executable statement in the source — its entire body is commented out — so
it has no effect here either.  The output branch runs the frame loop for
`n_frames = process_scope.n_frames()` frames. -/
def process {α : Type} (has_input_callback has_output_callback : Bool)
    (cb : Nat → List α → List α) (dflt : α) (playing : Bool) (n_frames : Nat)
    (s : LocalProcessHandler α) : List (List α) × LocalProcessHandler α :=
  if playing = false then ([], s)
  else if has_output_callback then processLoop cb dflt n_frames s
  else ([], s)

/-- Several native callback invocations in sequence: each element of the
list is the `n_frames` of one invocation of `process` (with `playing = true`
throughout and an output callback installed); outputs are concatenated in
time order. -/
def processSeq {α : Type} (has_input_callback : Bool)
    (cb : Nat → List α → List α) (dflt : α) :
    List Nat → LocalProcessHandler α → List (List α) × LocalProcessHandler α
  | [], s => ([], s)
  | n :: ns, s =>
    let r := process has_input_callback true cb dflt true n s
    let rest := processSeq has_input_callback cb dflt ns r.2
    (r.1 ++ rest.1, rest.2)

/-- One frame of the bridge operation, written from the spec's words
(§4.1 step 2, sentences (a)-(c)) rather than from the source, for the
refinement theorem of claim C1:
(a) if the cursor equals `period_frames`, invoke the user output callback
    exactly once on the entire interleaved staging buffer and reset the
    cursor to `0`;
(b) for each channel index `c` in `[0, channel_count)`, copy
    `staging[c + cursor*channel_count]` into `nativeChannelViews[c]` at the
    current frame index (the emitted frame, channel-ordered);
(c) increment the cursor by `1`. -/
def specFrameStep {α : Type} (cb : Nat → List α → List α) (dflt : α)
    (s : LocalProcessHandler α) : List α × LocalProcessHandler α :=
  let s1 := if s.temp_output_buffer_index = s.temp_output_buffer_size then
      { s with
        temp_output_buffer := cb s.output_callback_count s.temp_output_buffer
        temp_output_buffer_index := 0
        output_callback_count := s.output_callback_count + 1 }
    else s
  (((List.range s1.num_out_channels).map fun c =>
      s1.temp_output_buffer.getD
        (c + s1.temp_output_buffer_index * s1.num_out_channels) dflt),
   { s1 with temp_output_buffer_index := s1.temp_output_buffer_index + 1 })

/-- The number of user-callback invocations the frame loop performs, as a
function of the period size `P`, the entry cursor `c` and the number of
requested frames, mirroring the loop's cursor discipline. -/
def cbCount (P : Nat) : Nat → Nat → Nat
  | _, 0 => 0
  | c, Nat.succ n => if c = P then 1 + cbCount P 1 n else cbCount P (c + 1) n

/-- `Stream` (src/host/jack/stream.rs:14-21): the fields that the control
and port-wiring operations touch.  `playing` models the target of the
`Arc<AtomicBool>` shared with the process handler; `async_client` is an
opaque backend handle and carries no state relevant to these operations. -/
structure Stream where
  playing : Bool
  input_port_names : List String
  output_port_names : List String
  deriving DecidableEq, Repr

/-- The `std::sync::atomic::Ordering` argument passed to an atomic store. -/
inductive AtomicOrdering where
  | Relaxed
  | Acquire
  | Release
  | AcqRel
  | SeqCst
  deriving DecidableEq, Repr

/-- `PlayStreamError` — imported by the stream module; no variant is ever
produced by `Stream::play`, so it is modelled as an empty type. -/
inductive PlayStreamError where
  deriving DecidableEq

/-- `PauseStreamError` — imported by the stream module; no variant is ever
produced by `Stream::pause`, so it is modelled as an empty type. -/
inductive PauseStreamError where
  deriving DecidableEq

/-- `StreamTrait::play` for the JACK stream (src/host/jack/stream.rs:171-174):
`self.playing.store(true, Ordering::SeqCst); Ok(())`.  Returns the updated
stream state, the result value, and the ordering used by the store. -/
def Stream.play (s : Stream) :
    Stream × Except PlayStreamError Unit × AtomicOrdering :=
  ({ s with playing := true }, Except.ok (), AtomicOrdering.SeqCst)

/-- `StreamTrait::pause` for the JACK stream
(src/host/jack/stream.rs:176-179):
`self.playing.store(false, Ordering::SeqCst); Ok(())`. -/
def Stream.pause (s : Stream) :
    Stream × Except PauseStreamError Unit × AtomicOrdering :=
  ({ s with playing := false }, Except.ok (), AtomicOrdering.SeqCst)

/-- The port-connection loop shared by `connect_to_system_outputs`
(src/host/jack/stream.rs:119-141) and `connect_to_system_inputs`
(src/host/jack/stream.rs:145-167): iterate over this stream's port names in
declaration order, break as soon as the discovered system-port list is
exhausted, attempt `connect_ports_by_name` on each pair, and on failure
print a message and keep going.  `connect_ok our_port system_port` is the
oracle for whether the backend accepts a given connection; the returned
list records every attempted pair together with its outcome. -/
def connectLoop (connect_ok : String → String → Bool) :
    List String → List String → List (String × String × Bool)
  | [], _ => []
  | _ :: _, [] => []
  | n :: ns, p :: ps => (n, p, connect_ok n p) :: connectLoop connect_ok ns ps

/-- `Stream::connect_to_system_outputs`: connect this stream's output ports
to the discovered `system:playback_.*` ports. -/
def Stream.connect_to_system_outputs (s : Stream) (system_ports : List String)
    (connect_ok : String → String → Bool) : List (String × String × Bool) :=
  connectLoop connect_ok s.output_port_names system_ports

/-- `Stream::connect_to_system_inputs`: connect this stream's input ports to
the discovered `system:capture_.*` ports. -/
def Stream.connect_to_system_inputs (s : Stream) (system_ports : List String)
    (connect_ok : String → String → Bool) : List (String × String × Bool) :=
  connectLoop connect_ok s.input_port_names system_ports

/-- Outcome of running a Rust constructor that may `panic!` (via `expect` or
`unwrap`) instead of returning. -/
inductive BuildOutcome (β : Type) where
  | ok : β → BuildOutcome β
  | panicked : String → BuildOutcome β
  deriving DecidableEq

/-- `Stream::new_output` (src/host/jack/stream.rs:71-115): registers one
`out_{i}` port per channel with
`client.register_port(..).expect("Failed to create JACK port.")` — a panic
on the first failing registration — then activates the client with
`client.activate_async((), ..).unwrap()` — a panic on activation failure.
`register_port_ok i` / `activate_ok` are oracles for the backend results.
On success the stream starts with `playing = true` and the output port
names in declaration order (port `name()` lookups are assumed to succeed,
as the bridge model does not depend on them failing). -/
def Stream.new_output (channels : Nat) (register_port_ok : Nat → Bool)
    (activate_ok : Bool) : BuildOutcome Stream :=
  match (List.range channels).find? (fun i => ! register_port_ok i) with
  | some _ => BuildOutcome.panicked "Failed to create JACK port."
  | none =>
    if activate_ok then
      BuildOutcome.ok
        { playing := true
          input_port_names := []
          output_port_names :=
            (List.range channels).map fun i =>
              String.append "out_" (toString i) }
    else
      BuildOutcome.panicked "called unwrap on an Err value"

/-- `Stream::new_input` (src/host/jack/stream.rs:25-69): same shape as
`new_output` with `in_{i}` ports. -/
def Stream.new_input (channels : Nat) (register_port_ok : Nat → Bool)
    (activate_ok : Bool) : BuildOutcome Stream :=
  match (List.range channels).find? (fun i => ! register_port_ok i) with
  | some _ => BuildOutcome.panicked "Failed to create JACK port."
  | none =>
    if activate_ok then
      BuildOutcome.ok
        { playing := true
          input_port_names :=
            (List.range channels).map fun i =>
              String.append "in_" (toString i)
          output_port_names := [] }
    else
      BuildOutcome.panicked "called unwrap on an Err value"

end Jack

/-- The generic `Buffer` handle of src/lib.rs:220-226: an output buffer view
whose `target` is `Some` until taken by `Drop`.  The element list stands for
the backend buffer the handle points at. -/
structure Buffer (T : Type) where
  target : Option (List T)
  deriving DecidableEq

/-- `impl Deref for Buffer` (src/lib.rs:480-489): every immutable
dereference executes `panic!("It is forbidden to read from the audio
buffer")`; the panic is modelled as an `Except.error` carrying the panic
message, and no sample data is ever returned. -/
def Buffer.deref {T : Type} (b : Buffer T) : Except String (List T) :=
  Except.error "It is forbidden to read from the audio buffer"

/-- `impl DerefMut for Buffer` (src/lib.rs:491-498): yields the underlying
writable slice via `self.target.as_mut().unwrap().buffer()`; the `unwrap`
panics only if `target` is `None` (which `Drop` alone causes). -/
def Buffer.deref_mut {T : Type} (b : Buffer T) : Except String (List T) :=
  match b.target with
  | some t => Except.ok t
  | none => Except.error "called unwrap on a None value"

/-! ## Lemmas about the embedded operations -/

namespace Jack

lemma processLoop_length {α : Type} (cb : Nat → List α → List α) (dflt : α) :
    ∀ (n : Nat) (s : LocalProcessHandler α),
      (processLoop cb dflt n s).1.length = n := by
  intro n
  induction n with
  | zero => intro s; rfl
  | succ n ih =>
    intro s
    simp only [processLoop, List.length_cons, ih]

lemma processLoop_size_const {α : Type} (cb : Nat → List α → List α)
    (dflt : α) : ∀ (n : Nat) (s : LocalProcessHandler α),
      (processLoop cb dflt n s).2.temp_output_buffer_size
        = s.temp_output_buffer_size := by
  intro n
  induction n with
  | zero => intro s; rfl
  | succ n ih =>
    intro s
    simp only [processLoop, ih]
    split <;> rfl

lemma processLoop_channels_const {α : Type} (cb : Nat → List α → List α)
    (dflt : α) : ∀ (n : Nat) (s : LocalProcessHandler α),
      (processLoop cb dflt n s).2.num_out_channels = s.num_out_channels := by
  intro n
  induction n with
  | zero => intro s; rfl
  | succ n ih =>
    intro s
    simp only [processLoop, ih]
    split <;> rfl

lemma processLoop_callback_count {α : Type} (cb : Nat → List α → List α)
    (dflt : α) : ∀ (n : Nat) (s : LocalProcessHandler α),
      (processLoop cb dflt n s).2.output_callback_count
        = s.output_callback_count
          + cbCount s.temp_output_buffer_size s.temp_output_buffer_index n := by
  intro n
  induction n with
  | zero => intro s; rfl
  | succ n ih =>
    intro s
    by_cases h : s.temp_output_buffer_index = s.temp_output_buffer_size
    · simp only [processLoop, if_pos h, cbCount, ih, Nat.zero_add]
      omega
    · simp only [processLoop, if_neg h, cbCount, ih]

lemma cbCount_closed {P : Nat} (hP : 0 < P) :
    ∀ (n c : Nat), c ≤ P → cbCount P c n = (c + n - 1) / P - (c - 1) / P := by
  intro n
  induction n with
  | zero =>
    intro c _
    simp [cbCount]
  | succ n ih =>
    intro c hc
    by_cases h : c = P
    · subst h
      have e1 : cbCount c c (n + 1) = 1 + cbCount c 1 n := by
        rw [cbCount, if_pos rfl]
      have e2 : cbCount c 1 n = (1 + n - 1) / c - (1 - 1) / c := ih 1 hP
      have e3 : (1 : Nat) + n - 1 = n := by omega
      have e4 : ((1 : Nat) - 1) / c = 0 := by simp
      have e5 : c + (n + 1) - 1 = n + c := by omega
      have e6 : (n + c) / c = n / c + 1 := Nat.add_div_right n hP
      have e7 : (c - 1) / c = 0 := Nat.div_eq_of_lt (by omega)
      rw [e1, e2, e3, e4, e5, e6, e7, Nat.sub_zero, Nat.sub_zero]
      exact Nat.add_comm 1 (n / c)
    · have hcP : c < P := lt_of_le_of_ne hc h
      have e1 : cbCount P c (n + 1) = cbCount P (c + 1) n := by
        rw [cbCount, if_neg h]
      have e2 := ih (c + 1) (by omega)
      have e3 : c + 1 + n - 1 = c + n := by omega
      have e4 : c + 1 - 1 = c := by omega
      have e5 : c + (n + 1) - 1 = c + n := by omega
      rw [e1, e2, e3, e4, e5]
      rcases Nat.eq_zero_or_pos c with hc0 | hc0
      · subst hc0; rfl
      · rw [Nat.div_eq_of_lt hcP, Nat.div_eq_of_lt (show c - 1 < P by omega)]

lemma processLoop_add {α : Type} (cb : Nat → List α → List α) (dflt : α) :
    ∀ (m n : Nat) (s : LocalProcessHandler α),
      processLoop cb dflt (m + n) s
        = ((processLoop cb dflt m s).1
             ++ (processLoop cb dflt n (processLoop cb dflt m s).2).1,
           (processLoop cb dflt n (processLoop cb dflt m s).2).2) := by
  intro m n
  induction m with
  | zero =>
    intro s
    simp [processLoop, Nat.zero_add]
  | succ m ih =>
    intro s
    have hsum : m + 1 + n = (m + n) + 1 := by omega
    rw [hsum]
    simp only [processLoop, ih, List.cons_append]

lemma processSeq_eq_total {α : Type} (hi : Bool) (cb : Nat → List α → List α)
    (dflt : α) : ∀ (ns : List Nat) (s : LocalProcessHandler α),
      processSeq hi cb dflt ns s = processLoop cb dflt ns.sum s := by
  intro ns
  induction ns with
  | nil => intro s; rfl
  | cons n ns ih =>
    intro s
    have hp : ∀ t, process hi true cb dflt true n t = processLoop cb dflt n t := by
      intro t
      simp [process]
    simp only [processSeq, hp, ih, List.sum_cons]
    rw [processLoop_add]

lemma getD_replicate_of_lt {α : Type} :
    ∀ (n i : Nat) (a d : α), i < n → (List.replicate n a).getD i d = a := by
  intro n
  induction n with
  | zero => intro i a d h; omega
  | succ n ih =>
    intro i a d h
    cases i with
    | zero => rfl
    | succ i =>
      simp only [List.replicate, List.getD_cons_succ]
      exact ih i a d (by omega)

/-- While the cursor stays strictly inside the period, the loop emits only
samples read from the (all-`z`) staging buffer and never invokes the user
callback. -/
lemma processLoop_silent {α : Type} (cb : Nat → List α → List α) (dflt z : α) :
    ∀ (n : Nat) (s : LocalProcessHandler α),
      s.temp_output_buffer
          = List.replicate (s.num_out_channels * s.temp_output_buffer_size) z →
      s.temp_output_buffer_index + n ≤ s.temp_output_buffer_size →
      (processLoop cb dflt n s).1
          = List.replicate n (List.replicate s.num_out_channels z)
        ∧ (processLoop cb dflt n s).2.output_callback_count
          = s.output_callback_count := by
  intro n
  induction n with
  | zero => intro s _ _; exact ⟨rfl, rfl⟩
  | succ n ih =>
    intro s hbuf hn
    have hidx : s.temp_output_buffer_index < s.temp_output_buffer_size := by
      omega
    have hne : ¬ s.temp_output_buffer_index = s.temp_output_buffer_size := by
      omega
    have hframe : ((List.range s.num_out_channels).map fun ch_ix =>
        s.temp_output_buffer.getD
          (ch_ix + s.temp_output_buffer_index * s.num_out_channels) dflt)
        = List.replicate s.num_out_channels z := by
      apply List.eq_replicate_iff.mpr
      refine ⟨by simp, ?_⟩
      intro b hb
      rcases List.mem_map.mp hb with ⟨c, hc, rfl⟩
      have hcC : c < s.num_out_channels := List.mem_range.mp hc
      have hin : c + s.temp_output_buffer_index * s.num_out_channels
          < s.num_out_channels * s.temp_output_buffer_size := by
        have h1 : c + s.temp_output_buffer_index * s.num_out_channels
            < s.num_out_channels
              + s.temp_output_buffer_index * s.num_out_channels :=
          Nat.add_lt_add_right hcC _
        have h2 : s.num_out_channels
              + s.temp_output_buffer_index * s.num_out_channels
            = (s.temp_output_buffer_index + 1) * s.num_out_channels := by
          rw [Nat.succ_mul, Nat.add_comm]
        have h3 : (s.temp_output_buffer_index + 1) * s.num_out_channels
            ≤ s.temp_output_buffer_size * s.num_out_channels :=
          Nat.mul_le_mul_right _ (by omega)
        calc c + s.temp_output_buffer_index * s.num_out_channels
            < (s.temp_output_buffer_index + 1) * s.num_out_channels := by
              rw [← h2]; exact h1
          _ ≤ s.temp_output_buffer_size * s.num_out_channels := h3
          _ = s.num_out_channels * s.temp_output_buffer_size :=
              Nat.mul_comm _ _
      rw [hbuf]
      exact getD_replicate_of_lt _ _ z dflt hin
    have ihs := ih { s with
        temp_output_buffer_index := s.temp_output_buffer_index + 1 }
      hbuf (by simpa using by omega)
    constructor
    · simp only [processLoop, if_neg hne]
      rw [hframe]
      have := ihs.1
      simp only [List.replicate] at this ⊢
      rw [this]
    · simp only [processLoop, if_neg hne]
      exact ihs.2

lemma connectLoop_attempted_pairs (connect_ok : String → String → Bool) :
    ∀ (ns ps : List String),
      (connectLoop connect_ok ns ps).map (fun t => (t.1, t.2.1)) = ns.zip ps := by
  intro ns
  induction ns with
  | nil => intro ps; rfl
  | cons n ns ih =>
    intro ps
    cases ps with
    | nil => rfl
    | cons p ps => simp [connectLoop, ih]

lemma connectLoop_length (connect_ok : String → String → Bool) :
    ∀ (ns ps : List String),
      (connectLoop connect_ok ns ps).length = min ns.length ps.length := by
  intro ns
  induction ns with
  | nil => intro ps; simp [connectLoop]
  | cons n ns ih =>
    intro ps
    cases ps with
    | nil => simp [connectLoop]
    | cons p ps =>
      simp only [connectLoop, List.length_cons, ih]
      omega

end Jack

/-! ## The claims -/

/-- Claim C1: for every native callback invocation of the bridge's process
operation with the playing flag true, each of the `requestedFrames` frames
is handled, in order, exactly as the spec's per-frame step prescribes:
callback-on-depletion with cursor reset, interleaved copy
`staging[c + cursor*channel_count]` into channel `c` of the current frame,
then cursor increment (`specFrameStep`, written from the spec's words);
moreover, when the callback fires it is handed the entire staging buffer,
which has length `channel_count × period_frames` whenever the staging
buffer has its constructed length and the callback preserves buffer
length. -/
theorem c1_process_frame_refines_spec {α : Type} (cb : Nat → List α → List α)
    (dflt : α) (n : Nat) (s : Jack.LocalProcessHandler α)
    (hlen : s.temp_output_buffer.length
      = s.num_out_channels * s.temp_output_buffer_size)
    (hcb : ∀ k b, (cb k b).length = b.length) :
    Jack.process false true cb dflt true (n + 1) s
        = ((Jack.specFrameStep cb dflt s).1
             :: (Jack.process false true cb dflt true n
                  (Jack.specFrameStep cb dflt s).2).1,
           (Jack.process false true cb dflt true n
              (Jack.specFrameStep cb dflt s).2).2)
      ∧ (Jack.specFrameStep cb dflt s).2.temp_output_buffer.length
          = s.num_out_channels * s.temp_output_buffer_size := by
  constructor
  · rfl
  · by_cases h : s.temp_output_buffer_index = s.temp_output_buffer_size
    · simp [Jack.specFrameStep, h, hcb, hlen]
    · simp [Jack.specFrameStep, h, hlen]

theorem c1_witness :
    ((⟨1, [5, 6], 2, 2, 0⟩ :
        Jack.LocalProcessHandler Nat).temp_output_buffer.length = 1 * 2)
    ∧ (∀ (k : Nat) (b : List Nat),
        ((fun (k : Nat) (b : List Nat) => b.map fun x => x + k) k b).length
          = b.length)
    ∧ (Jack.process false true (fun k b => b.map fun x => x + k) 0 true (1 + 1)
          ⟨1, [5, 6], 2, 2, 0⟩
        = ((Jack.specFrameStep (fun k b => b.map fun x => x + k) 0
              ⟨1, [5, 6], 2, 2, 0⟩).1
             :: (Jack.process false true (fun k b => b.map fun x => x + k) 0
                  true 1
                  (Jack.specFrameStep (fun k b => b.map fun x => x + k) 0
                    ⟨1, [5, 6], 2, 2, 0⟩).2).1,
           (Jack.process false true (fun k b => b.map fun x => x + k) 0 true 1
              (Jack.specFrameStep (fun k b => b.map fun x => x + k) 0
                ⟨1, [5, 6], 2, 2, 0⟩).2).2)
      ∧ (Jack.specFrameStep (fun k b => b.map fun x => x + k) 0
            ⟨1, [5, 6], 2, 2, 0⟩).2.temp_output_buffer.length = 1 * 2) :=
  ⟨rfl, fun k b => by simp,
    c1_process_frame_refines_spec (fun k b => b.map fun x => x + k) 0 1
      ⟨1, [5, 6], 2, 2, 0⟩ rfl (fun k b => by simp)⟩

/-- Claim C2: during one process invocation of `n` frames that starts with
the staging buffer fully consumed (cursor = `period_frames`, i.e. no
carryover frames are available — the reading under which the claim's
"exactly `ceil(requestedFrames / period_frames)`" count is coherent with
its "fewer when mid-buffer" clause), exactly
`⌈n / period_frames⌉ = (n + period_frames - 1) / period_frames` user
callback invocations occur; from any cursor position at most that many
occur ("fewer" read as "no more than": carryover can end exactly on a
period boundary, so strictly fewer is not always the case); and exactly
`n` frames are emitted, none dropped or duplicated. -/
theorem c2_callback_count_per_call {α : Type} (cb : Nat → List α → List α)
    (dflt : α) (n : Nat) (s : Jack.LocalProcessHandler α)
    (hP : 0 < s.temp_output_buffer_size)
    (hc : s.temp_output_buffer_index ≤ s.temp_output_buffer_size) :
    ((Jack.process false true cb dflt true n s).2.output_callback_count
        ≤ s.output_callback_count
          + (n + s.temp_output_buffer_size - 1) / s.temp_output_buffer_size)
    ∧ (s.temp_output_buffer_index = s.temp_output_buffer_size →
       (Jack.process false true cb dflt true n s).2.output_callback_count
         = s.output_callback_count
           + (n + s.temp_output_buffer_size - 1) / s.temp_output_buffer_size)
    ∧ (Jack.process false true cb dflt true n s).1.length = n := by
  have hproc : Jack.process false true cb dflt true n s
      = Jack.processLoop cb dflt n s := by
    simp [Jack.process]
  rw [hproc]
  refine ⟨?_, ?_, Jack.processLoop_length cb dflt n s⟩
  · rw [Jack.processLoop_callback_count,
      Jack.cbCount_closed hP n s.temp_output_buffer_index hc]
    have h1 : s.temp_output_buffer_index + n - 1
        ≤ n + s.temp_output_buffer_size - 1 := by omega
    have h2 := Nat.div_le_div_right (c := s.temp_output_buffer_size) h1
    have h3 := Nat.sub_le
      ((s.temp_output_buffer_index + n - 1) / s.temp_output_buffer_size)
      ((s.temp_output_buffer_index - 1) / s.temp_output_buffer_size)
    omega
  · intro h
    rw [Jack.processLoop_callback_count, h,
      Jack.cbCount_closed hP n s.temp_output_buffer_size le_rfl]
    have h1 : s.temp_output_buffer_size + n - 1
        = n + s.temp_output_buffer_size - 1 := by omega
    have h2 : (s.temp_output_buffer_size - 1) / s.temp_output_buffer_size
        = 0 := Nat.div_eq_of_lt (by omega)
    rw [h1, h2, Nat.sub_zero]

theorem c2_witness :
    (0 : Nat) < 2 ∧ (2 : Nat) ≤ 2
    ∧ (((Jack.process false true (fun (_ : Nat) (b : List Nat) => b) 0 true 3
          ⟨1, [5, 6], 2, 2, 0⟩).2.output_callback_count ≤ 0 + (3 + 2 - 1) / 2)
      ∧ ((2 : Nat) = 2 →
         (Jack.process false true (fun (_ : Nat) (b : List Nat) => b) 0 true 3
            ⟨1, [5, 6], 2, 2, 0⟩).2.output_callback_count = 0 + (3 + 2 - 1) / 2)
      ∧ (Jack.process false true (fun (_ : Nat) (b : List Nat) => b) 0 true 3
          ⟨1, [5, 6], 2, 2, 0⟩).1.length = 3) :=
  ⟨by decide, by decide,
    c2_callback_count_per_call (fun _ b => b) 0 3 ⟨1, [5, 6], 2, 2, 0⟩
      (by decide) (by decide)⟩

/-- Claim C3: for every period size and every callback, any two sequences of
native-callback frame requests with the same total — in particular an
unaligned sequence such as 10, 10, 10, 2 against aligned chunks of the
period size — drive the bridge to identical emitted channel data,
frame for frame, and to identical final bridge state. -/
theorem c3_unaligned_requests_equivalent {α : Type} (hi : Bool)
    (cb : Nat → List α → List α) (dflt : α) (ns ms : List Nat)
    (s : Jack.LocalProcessHandler α) (h : ns.sum = ms.sum) :
    Jack.processSeq hi cb dflt ns s = Jack.processSeq hi cb dflt ms s := by
  rw [Jack.processSeq_eq_total, Jack.processSeq_eq_total, h]

theorem c3_witness :
    ([1, 2, 1] : List Nat).sum = ([2, 2] : List Nat).sum
    ∧ Jack.processSeq false (fun k b => b.map fun x => x + k + 1) 0 [1, 2, 1]
          (⟨1, [5, 6], 2, 2, 0⟩ : Jack.LocalProcessHandler Nat)
        = Jack.processSeq false (fun k b => b.map fun x => x + k + 1) 0 [2, 2]
          ⟨1, [5, 6], 2, 2, 0⟩ :=
  ⟨rfl,
    c3_unaligned_requests_equivalent false (fun k b => b.map fun x => x + k + 1)
      0 [1, 2, 1] [2, 2] ⟨1, [5, 6], 2, 2, 0⟩ rfl⟩

/-- Claim C4: a process invocation with the shared playing flag false is a
no-op — no frames are written to native buffers, no user callback runs, and
the handler state (cursor and staging contents included) is unchanged — and
a later playing invocation behaves exactly as if the paused invocation had
never happened, so no frames are skipped or duplicated across the pause. -/
theorem c4_paused_process_is_noop {α : Type} (hi ho : Bool)
    (cb : Nat → List α → List α) (dflt : α) (n m : Nat)
    (s : Jack.LocalProcessHandler α) :
    Jack.process hi ho cb dflt false n s = ([], s)
    ∧ Jack.process hi ho cb dflt true n
          (Jack.process hi ho cb dflt false m s).2
        = Jack.process hi ho cb dflt true n s :=
  ⟨rfl, rfl⟩

/-- Claim C5 (refuted — the code lacks the input direction): on an input
stream (`input_data_callback` is `Some`, no output callback), the process
operation does nothing at all — the input branch of the source
(src/host/jack/stream.rs:246-254) consists solely of commented-out code, so
no deinterleaving happens and the user input callback is never invoked,
while the claim requires the staging buffer to be filled and flushed to the
user input callback symmetrically to the output direction. -/
theorem c5_input_branch_does_nothing {α : Type} (cb : Nat → List α → List α)
    (dflt : α) (playing : Bool) (n : Nat) (s : Jack.LocalProcessHandler α) :
    Jack.process true false cb dflt playing n s = ([], s) := by
  cases playing <;> rfl

/-- Claim C6 (refuted — construction panics): a failed port registration
makes `Stream::new_input`/`new_output` panic via
`.expect("Failed to create JACK port.")`, and a failed backend activation
makes them panic via `.unwrap()`; no typed error value is ever returned to
the caller (the constructors do not even have a `Result` return type),
contradicting the claim that construction-time failures are returned as
typed errors and never panic. -/
theorem c6_construction_failure_panics :
    Jack.Stream.new_output 2 (fun i => decide (i = 0)) true
        = Jack.BuildOutcome.panicked "Failed to create JACK port."
    ∧ Jack.Stream.new_input 2 (fun i => decide (i = 0)) true
        = Jack.BuildOutcome.panicked "Failed to create JACK port."
    ∧ Jack.Stream.new_output 1 (fun _ => true) false
        = Jack.BuildOutcome.panicked "called unwrap on an Err value"
    ∧ Jack.Stream.new_input 1 (fun _ => true) false
        = Jack.BuildOutcome.panicked "called unwrap on an Err value" :=
  ⟨rfl, rfl, rfl, rfl⟩

/-- Claim C7: reading from an output buffer handle (immutable dereference)
always aborts with the clear error message "It is forbidden to read from
the audio buffer" and never returns sample data, while writing (mutable
dereference) succeeds and yields the underlying buffer as long as the
handle has not been consumed by `Drop`. -/
theorem c7_output_buffer_read_rejected {T : Type} (b : Buffer T)
    (t : List T) (h : b.target = some t) :
    b.deref = Except.error "It is forbidden to read from the audio buffer"
    ∧ b.deref_mut = Except.ok t := by
  refine ⟨rfl, ?_⟩
  simp [Buffer.deref_mut, h]

theorem c7_witness :
    (Buffer.mk (some [1, 2]) : Buffer Nat).target = some [1, 2]
    ∧ ((Buffer.mk (some [1, 2]) : Buffer Nat).deref
        = Except.error "It is forbidden to read from the audio buffer"
      ∧ (Buffer.mk (some [1, 2]) : Buffer Nat).deref_mut
        = Except.ok [1, 2]) :=
  ⟨rfl, c7_output_buffer_read_rejected (Buffer.mk (some [1, 2])) [1, 2] rfl⟩

/-- Claim C8: `play()` and `pause()` always succeed with `Ok(())`, store the
shared playing flag (true resp. false) with sequentially-consistent
ordering, change no other stream state, and are idempotent: a second call
leaves exactly the state of a single call. -/
theorem c8_play_pause_idempotent_ok (s : Jack.Stream) :
    s.play = ({ s with playing := true }, Except.ok (),
        Jack.AtomicOrdering.SeqCst)
    ∧ s.pause = ({ s with playing := false }, Except.ok (),
        Jack.AtomicOrdering.SeqCst)
    ∧ (s.play.1).play = s.play
    ∧ (s.pause.1).pause = s.pause
    ∧ (s.play.1).input_port_names = s.input_port_names
    ∧ (s.play.1).output_port_names = s.output_port_names
    ∧ (s.pause.1).input_port_names = s.input_port_names
    ∧ (s.pause.1).output_port_names = s.output_port_names :=
  ⟨rfl, rfl, rfl, rfl, rfl, rfl, rfl, rfl⟩

/-- Claim C9: `connect_to_system_outputs`/`connect_to_system_inputs` attempt
to connect exactly the first `min(n, m)` of the stream's `n` declared ports,
in declaration order, to the corresponding of the `m` discovered system
ports — the attempted pairs are precisely `zip names system_ports` — the
loop stops silently when either list is exhausted, and the set of attempted
pairs is independent of which individual connections fail (a failure is
reported but does not abort the remaining attempts). -/
theorem c9_connect_attempts_exactly_min (s : Jack.Stream)
    (system_ports : List String) (ok ok2 : String → String → Bool) :
    (s.connect_to_system_outputs system_ports ok).map (fun t => (t.1, t.2.1))
        = s.output_port_names.zip system_ports
    ∧ (s.connect_to_system_outputs system_ports ok).length
        = min s.output_port_names.length system_ports.length
    ∧ (s.connect_to_system_inputs system_ports ok).map (fun t => (t.1, t.2.1))
        = s.input_port_names.zip system_ports
    ∧ (s.connect_to_system_inputs system_ports ok).length
        = min s.input_port_names.length system_ports.length
    ∧ (s.connect_to_system_outputs system_ports ok).map (fun t => (t.1, t.2.1))
        = (s.connect_to_system_outputs system_ports ok2).map
            (fun t => (t.1, t.2.1)) := by
  refine ⟨Jack.connectLoop_attempted_pairs ok _ _,
    Jack.connectLoop_length ok _ _,
    Jack.connectLoop_attempted_pairs ok _ _,
    Jack.connectLoop_length ok _ _, ?_⟩
  exact (Jack.connectLoop_attempted_pairs ok _ _).trans
    (Jack.connectLoop_attempted_pairs ok2 _ _).symm

/-- Claim C10: a freshly constructed output bridge has a zero-initialized
staging buffer and cursor 0, and over any sequence of native callbacks
totalling at most `period_frames` frames it emits only zero samples
(silence) on every channel while never invoking the user output callback:
the first period's worth of native output is silence preceding the first
callback invocation. -/
theorem c10_initial_silence {α : Type} (zero dflt : α)
    (cb : Nat → List α → List α) (C P : Nat) (ns : List Nat)
    (h : ns.sum ≤ P) :
    (Jack.LocalProcessHandler.new α C P zero).temp_output_buffer
        = List.replicate (C * P) zero
    ∧ (Jack.LocalProcessHandler.new α C P zero).temp_output_buffer_index = 0
    ∧ (Jack.processSeq false cb dflt ns
          (Jack.LocalProcessHandler.new α C P zero)).1
        = List.replicate ns.sum (List.replicate C zero)
    ∧ (Jack.processSeq false cb dflt ns
          (Jack.LocalProcessHandler.new α C P zero)).2.output_callback_count
        = 0 := by
  refine ⟨rfl, rfl, ?_, ?_⟩
  · rw [Jack.processSeq_eq_total]
    exact (Jack.processLoop_silent cb dflt zero ns.sum _ rfl
      (by show 0 + ns.sum ≤ P; omega)).1
  · rw [Jack.processSeq_eq_total]
    exact (Jack.processLoop_silent cb dflt zero ns.sum _ rfl
      (by show 0 + ns.sum ≤ P; omega)).2

theorem c10_witness :
    ([1, 2] : List Nat).sum ≤ 3
    ∧ ((Jack.LocalProcessHandler.new Nat 2 3 0).temp_output_buffer
        = List.replicate (2 * 3) 0
      ∧ (Jack.LocalProcessHandler.new Nat 2 3 0).temp_output_buffer_index = 0
      ∧ (Jack.processSeq false (fun _ b => b.map fun x => x + 1) 7 [1, 2]
            (Jack.LocalProcessHandler.new Nat 2 3 0)).1
          = List.replicate ([1, 2] : List Nat).sum (List.replicate 2 0)
      ∧ (Jack.processSeq false (fun _ b => b.map fun x => x + 1) 7 [1, 2]
            (Jack.LocalProcessHandler.new Nat 2 3 0)).2.output_callback_count
          = 0) :=
  ⟨by decide,
    c10_initial_silence 0 7 (fun _ b => b.map fun x => x + 1) 2 3 [1, 2]
      (by decide)⟩

end Cpal
